import Mathlib

/-!
Formal model of the data-plane replication core in
`lib/libzrepl/data_conn.c` (uzfs zvol replica server), as a shallow
embedding.  Sockets are modelled as finite streams of syscall outcomes,
the block store as a log of write operations, and the per-volume shared
state is threaded explicitly through each function.  Machine integers
are modelled as `Nat`, with explicit `% 2 ^ 64` wherever the width of a
field matters (the on-wire 64-bit fields are decoded little-endian from
byte lists).
-/

namespace DataConn

/-! ## Wire-level enumerations and the I/O header

The opcode, status and flag constants come from the replica protocol
header described in spec §6 (the enum itself lives in a protocol header
outside this translation unit). -/

inductive ZvolOpCode
  | HANDSHAKE | READ | WRITE | SYNC | OPEN
  | REBUILD_STEP | REBUILD_STEP_DONE | REBUILD_COMPLETE
deriving DecidableEq, Repr

inductive ZvolOpStatus
  | OK | FAILED
deriving DecidableEq, Repr

def ZVOL_OP_FLAG_REBUILD : Nat := 1

def ZVOL_OP_FLAG_READ_METADATA : Nat := 2

structure ZvolIoHdr where
  version : Nat
  opcode : ZvolOpCode
  flags : Nat
  status : ZvolOpStatus
  io_seq : Nat
  checkpointed_io_seq : Nat
  offset : Nat
  len : Nat
deriving DecidableEq, Repr

/-! ## Blocking-socket primitives

A blocking socket is modelled by the finite list of outcomes its
successive `read(2)` / `write(2)` syscalls produce.  `ReadEv.bytes bs`
is a read returning the chunk `bs` (`bs = []` is a zero-byte return,
i.e. the peer closed the connection); `eintr` is a failure with
`errno = EINTR`; `err` is a failure with any other `errno`.  When the
event list is exhausted while the loop still needs data, the blocking
call would block forever; this is the `blocked` outcome. -/

inductive ReadEv
  | bytes (bs : List Nat)
  | eintr
  | err
deriving DecidableEq, Repr

inductive ReadResult
  | ok (got : List Nat) (rest : List ReadEv)
  | fail (rest : List ReadEv)
  | blocked
deriving DecidableEq, Repr

/-- `uzfs_zvol_socket_read(fd, buf, nbytes)` (data_conn.c:107-127): loop
until `nbytes` bytes accumulated; `EINTR` retries, any other failure
returns -1, and a zero-byte read ("connection closed by the peer") also
returns -1.  A read delivering more than the requested count leaves the
surplus on the socket. -/
def uzfs_zvol_socket_read : List ReadEv → Nat → ReadResult
  | evs, 0 => .ok [] evs
  | [], _ + 1 => .blocked
  | .eintr :: r, n + 1 => uzfs_zvol_socket_read r (n + 1)
  | .err :: r, _ + 1 => .fail r
  | .bytes bs :: r, n + 1 =>
    if bs.length = 0 then .fail r
    else if bs.length ≤ n + 1 then
      match uzfs_zvol_socket_read r (n + 1 - bs.length) with
      | .ok got rest => .ok (bs ++ got) rest
      | .fail rest => .fail rest
      | .blocked => .blocked
    else .ok (bs.take (n + 1)) (.bytes (bs.drop (n + 1)) :: r)

/-- One outcome of a `write(2)` call: `wrote k` transferred `k` bytes
(the kernel may legitimately report `k = 0`), `eintr` failed with
`EINTR`, `err` failed with any other `errno`. -/
inductive WriteEv
  | wrote (k : Nat)
  | eintr
  | err
deriving DecidableEq, Repr

inductive WriteResult
  | done (rc : Int) (rest : List WriteEv)
  | blocked
deriving DecidableEq, Repr

/-- `uzfs_zvol_socket_write(fd, buf, nbytes)` (data_conn.c:165-182):
loop until `nbytes` bytes written; `EINTR` retries, any other failure
returns -1.  Unlike the read loop there is no check for a zero-byte
transfer, so a `write` returning 0 simply iterates again. -/
def uzfs_zvol_socket_write : List WriteEv → Nat → WriteResult
  | evs, 0 => .done 0 evs
  | [], _ + 1 => .blocked
  | .eintr :: r, n + 1 => uzfs_zvol_socket_write r (n + 1)
  | .err :: r, _ + 1 => .done (-1) r
  | .wrote k :: r, n + 1 => uzfs_zvol_socket_write r (n + 1 - k)

/-! ## Little-endian byte coding for the 64-bit on-wire fields -/

def leVal : List Nat → Nat
  | [] => 0
  | b :: r => b % 256 + 256 * leVal r

def leBytes : Nat → Nat → List Nat
  | 0, _ => []
  | w + 1, v => v % 256 :: leBytes w (v / 256)

/-- Byte width of `hdr->version` (a `uint16_t`).  Modelled from the
spec: the wire layout of `zvol_io_hdr_t` (§6) lives in a protocol
header outside this translation unit. -/
def VERSION_SIZE : Nat := 2

/-- Byte width of the whole `zvol_io_hdr_t` per the §6 field list
(2 + 2 + 4 + 4 + 8 + 8 + 8 + 8).  Only `VERSION_SIZE < HDR_SIZE`
matters to the properties proved below. -/
def HDR_SIZE : Nat := 44

/-- `uzfs_zvol_read_header(fd, hdr)` (data_conn.c:137-159): read the
`version` field alone; if it is not the supported protocol version,
return 1 without touching the socket again; otherwise read the rest of
the header.  Any socket-read failure returns -1; `none` models the
process blocking forever inside a read.  The result carries the
remaining socket stream so that consumption is observable. -/
def uzfs_zvol_read_header (replicaVersion : Nat) (evs : List ReadEv) :
    Option (Int × List ReadEv) :=
  match uzfs_zvol_socket_read evs VERSION_SIZE with
  | .blocked => none
  | .fail rest => some (-1, rest)
  | .ok got rest =>
    if leVal got ≠ replicaVersion then some (1, rest)
    else
      match uzfs_zvol_socket_read rest (HDR_SIZE - VERSION_SIZE) with
      | .blocked => none
      | .fail rest2 => some (-1, rest2)
      | .ok _ rest2 => some (0, rest2)

/-! ## The zio command object and its allocator / deallocator -/

/-- `zvol_io_cmd_t`: one request flowing through the pipeline.  `buf` is
`some bytes` when a payload buffer was allocated (opcode READ / WRITE /
OPEN), `none` otherwise.  The volume pointer `zv` is passed to the
worker separately as explicit state. -/
structure ZioCmd where
  hdr : ZvolIoHdr
  buf : Option (List Nat)
  buf_len : Nat
  conn : Nat
deriving DecidableEq, Repr

/-- `zio_cmd_alloc(hdr, fd)` (data_conn.c:54-70): zero the command, copy
the header, allocate a `hdr->len`-byte zeroed buffer for READ / WRITE /
OPEN, record the originating connection. -/
def zio_cmd_alloc (hdr : ZvolIoHdr) (fd : Nat) : ZioCmd :=
  if hdr.opcode = .READ ∨ hdr.opcode = .WRITE ∨ hdr.opcode = .OPEN then
    { hdr := hdr, buf := some (List.replicate hdr.len 0),
      buf_len := hdr.len, conn := fd }
  else
    { hdr := hdr, buf := none, buf_len := 0, conn := fd }

/-- `zio_cmd_free` (data_conn.c:76-101) `VERIFY`-aborts on any opcode
other than READ / WRITE / OPEN / SYNC / REBUILD_STEP_DONE; this
predicate is true exactly when the free succeeds. -/
def zio_cmd_free_ok (cmd : ZioCmd) : Bool :=
  match cmd.hdr.opcode with
  | .READ | .WRITE | .OPEN | .SYNC | .REBUILD_STEP_DONE => true
  | _ => false

/-! ## uzfs_submit_writes

The block store (`uzfs_write_data`) is external: its result codes are
supplied by the oracle `wrc : Nat → Int` (result of the `k`-th write
call of this command), and the writes actually performed are logged as
`WriteOp` records.  The payload buffer is the byte list `buf`; `remain`
is identified with its length, which is sound because the receiver
allocates the buffer with `buf_len = hdr->len` and fills exactly that
many bytes.  A `struct zvol_io_rw_hdr` is 16 bytes: `io_num : u64`
followed by `len : u64`, both little-endian. -/

structure WriteOp where
  woff : Nat
  wdata : List Nat
  wion : Nat
  wreb : Bool
deriving DecidableEq, Repr

def WHDR_SIZE : Nat := 16

/-- `uzfs_submit_writes` (data_conn.c:188-232).  Walks the chunked
payload; a short sub-header or a declared chunk length overrunning the
buffer returns -1; each applied chunk raises `running_ionum` to its
`io_num` if larger (the sequential meaning of the CAS loop at lines
219-224).  Returns `(rc, running_ionum, write log)`. -/
def uzfs_submit_writes (is_rebuild : Bool) (wrc : Nat → Int) (k : Nat)
    (data_offset : Nat) (buf : List Nat) (running_ionum : Nat)
    (acc : List WriteOp) : Int × Nat × List WriteOp :=
  if buf.length = 0 then (0, running_ionum, acc)
  else if buf.length < WHDR_SIZE then (-1, running_ionum, acc)
  else
    let io_num := leVal (buf.take 8)
    let wlen := leVal ((buf.drop 8).take 8)
    let rest := buf.drop WHDR_SIZE
    if rest.length < wlen then (-1, running_ionum, acc)
    else if wrc k ≠ 0 then (wrc k, running_ionum, acc)
    else
      uzfs_submit_writes is_rebuild wrc (k + 1) (data_offset + wlen)
        (rest.drop wlen)
        (if running_ionum < io_num then io_num else running_ionum)
        (acc ++ [⟨data_offset, rest.take wlen, io_num, is_rebuild⟩])
termination_by buf.length
decreasing_by
  simp only [WHDR_SIZE, List.length_drop] at *
  omega

/-! ## uzfs_zvol_worker

The worker's shared inputs (`zinfo` fields it reads or writes) are an
explicit record; external calls are oracles (`readRc` for
`uzfs_read_data`, `wrc` for the block-store writes inside
`uzfs_submit_writes`).  `VERIFY` aborts are `none`.  The single
`drop_refcount` label at the end of the C function becomes the
`dropRef` wrapper, and `refDrops` counts calls of
`uzfs_zinfo_drop_refcnt`. -/

inductive ZinfoVolState
  | ONLINE | OFFLINE
deriving DecidableEq, Repr

structure ZinfoState where
  state : ZinfoVolState
  is_io_ack_sender_created : Bool
  io_ack_waiting : Bool
  complete_queue : List ZioCmd
  running_ionum : Nat
  read_req_received_cnt : Nat
  write_req_received_cnt : Nat
  sync_req_received_cnt : Nat
deriving DecidableEq, Repr

inductive CmdDispo
  | freed
  | enqueued
  | callerOwned
deriving DecidableEq, Repr

structure WorkerOut where
  zinfo : ZinfoState
  hdr : ZvolIoHdr
  dispo : CmdDispo
  signaled : Bool
  storeWrites : List WriteOp
  flushed : Bool
  usedMetadata : Bool
  refDrops : Nat
deriving DecidableEq, Repr

/-- The body of `uzfs_zvol_worker` (data_conn.c:244-342) up to the
`drop_refcount` label: every `goto drop_refcount` materialises as
producing a `WorkerOut` with `refDrops := 0`. -/
def uzfs_zvol_worker_body (zinfo : ZinfoState) (is_rebuilded : Bool)
    (readRc : Int) (wrc : Nat → Int) (cmd : ZioCmd) : Option WorkerOut :=
  let hdr := cmd.hdr
  let rebuild_cmd_req := Nat.land hdr.flags ZVOL_OP_FLAG_REBUILD ≠ 0
  let read_metadata := Nat.land hdr.flags ZVOL_OP_FLAG_READ_METADATA ≠ 0
  if zinfo.state = .OFFLINE then
    let hdr1 := { hdr with status := .FAILED, len := 0 }
    if ¬(rebuild_cmd_req ∧ hdr.opcode = .WRITE) then
      if zio_cmd_free_ok cmd then
        some { zinfo := zinfo, hdr := hdr1, dispo := .freed,
               signaled := false, storeWrites := [], flushed := false,
               usedMetadata := false, refDrops := 0 }
      else none
    else
      some { zinfo := zinfo, hdr := hdr1, dispo := .callerOwned,
             signaled := false, storeWrites := [], flushed := false,
             usedMetadata := false, refDrops := 0 }
  else
    let usedMetadata :=
      ¬((¬rebuild_cmd_req ∧ is_rebuilded) ∧ ¬read_metadata)
    let step : Option (Int × ZinfoState × List WriteOp × Bool) :=
      match hdr.opcode with
      | .READ =>
        some (readRc,
          { zinfo with read_req_received_cnt :=
              zinfo.read_req_received_cnt + 1 }, [], false)
      | .WRITE =>
        let w := uzfs_submit_writes rebuild_cmd_req wrc 0 hdr.offset
          (cmd.buf.getD []) zinfo.running_ionum []
        some (w.1,
          { zinfo with
              running_ionum := w.2.1,
              write_req_received_cnt :=
                zinfo.write_req_received_cnt + 1 }, w.2.2, false)
      | .SYNC =>
        some (0,
          { zinfo with sync_req_received_cnt :=
              zinfo.sync_req_received_cnt + 1 }, [], true)
      | .REBUILD_STEP_DONE => some (0, zinfo, [], false)
      | _ => none
    match step with
    | none => none
    | some (rc, zinfo1, ops, flushed) =>
      let hdr1 :=
        if rc ≠ 0 then { hdr with status := .FAILED, len := 0 }
        else { hdr with status := .OK }
      if rebuild_cmd_req ∧ hdr.opcode = .WRITE then
        some { zinfo := zinfo1, hdr := hdr1, dispo := .callerOwned,
               signaled := false, storeWrites := ops, flushed := flushed,
               usedMetadata := usedMetadata, refDrops := 0 }
      else if ¬zinfo1.is_io_ack_sender_created then
        if zio_cmd_free_ok cmd then
          some { zinfo := zinfo1, hdr := hdr1, dispo := .freed,
                 signaled := false, storeWrites := ops, flushed := flushed,
                 usedMetadata := usedMetadata, refDrops := 0 }
        else none
      else
        some { zinfo :=
                 { zinfo1 with complete_queue :=
                     zinfo1.complete_queue ++ [{ cmd with hdr := hdr1 }] },
               hdr := hdr1, dispo := .enqueued,
               signaled := zinfo1.io_ack_waiting, storeWrites := ops,
               flushed := flushed, usedMetadata := usedMetadata,
               refDrops := 0 }

/-- The `drop_refcount` label: one `uzfs_zinfo_drop_refcnt` call. -/
def dropRef (o : WorkerOut) : WorkerOut :=
  { o with refDrops := o.refDrops + 1 }

/-- `uzfs_zvol_worker(arg)` (data_conn.c:244-342): the body followed by
the single `drop_refcount` exit. -/
def uzfs_zvol_worker (zinfo : ZinfoState) (is_rebuilded : Bool)
    (readRc : Int) (wrc : Nat → Int) (cmd : ZioCmd) : Option WorkerOut :=
  (uzfs_zvol_worker_body zinfo is_rebuilded readRc wrc cmd).map dropRef

/-! ## Checkpoint-timer interval update -/

/-- `uzfs_update_ionum_interval(zinfo, timeout)` (data_conn.c:585-597).
State is the volume's `update_ionum_interval`; the second component of
the result records whether `cv_signal(&timer_cv)` was reached.  Note
the early return when the interval already equals `timeout`, which
skips the signal. -/
def uzfs_update_ionum_interval (update_ionum_interval : Nat)
    (timeout : Nat) : Nat × Bool :=
  if update_ionum_interval = timeout then (update_ionum_interval, false)
  else if timeout ≠ 0 then (timeout, true)
  else (update_ionum_interval, true)

/-! ## Rebuild-downstream driver: completion branch and exit bookkeeping

Only the two fragments of `uzfs_zvol_rebuild_dw_replica` that claim C6
is about are modelled: the `offset >= volume size` branch
(data_conn.c:411-423) and the bookkeeping after the `exit` label
(data_conn.c:494-515).  The socket write is the oracle `writeRc`. -/

inductive ZvolRebuildStatus
  | INIT | IN_PROGRESS | DONE | ERRORED | FAILED
deriving DecidableEq, Repr

inductive ZvolStatus
  | DEGRADED | HEALTHY
deriving DecidableEq, Repr

structure RebuildInfo where
  rebuild_cnt : Nat
  rebuild_done_cnt : Nat
  rebuild_failed_cnt : Nat
deriving DecidableEq, Repr

structure DwExitState where
  info : RebuildInfo
  rebuildStatus : ZvolRebuildStatus
  volStatus : ZvolStatus
  update_ionum_interval : Nat
deriving DecidableEq, Repr

/-- The `offset >= ZVOL_VOLUME_SIZE` branch (data_conn.c:411-423): send
`REBUILD_COMPLETE`; on a failed write log and force `rc = 0`; on a
successful write also `rc = 0`.  Returns `(rc, loggedWriteFailure)`. -/
def uzfs_zvol_rebuild_dw_complete_branch (writeRc : Int) : Int × Bool :=
  if writeRc ≠ 0 then (0, true) else (0, false)

/-- The bookkeeping after the `exit` label (data_conn.c:494-515), under
`rebuild_mtx`.  The second component records whether the timer was
kicked via `uzfs_update_ionum_interval(zinfo, 0)`. -/
def uzfs_zvol_rebuild_dw_exit (rc : Int) (s : DwExitState) :
    DwExitState × Bool :=
  let s1 :=
    if rc ≠ 0 then
      { s with
          rebuildStatus := .ERRORED,
          info := { s.info with
            rebuild_failed_cnt := s.info.rebuild_failed_cnt + 1 } }
    else s
  let s2 :=
    { s1 with
        info := { s1.info with
          rebuild_done_cnt := s1.info.rebuild_done_cnt + 1 } }
  if s2.info.rebuild_cnt = s2.info.rebuild_done_cnt then
    if s2.info.rebuild_failed_cnt ≠ 0 then
      ({ s2 with rebuildStatus := .FAILED }, false)
    else
      let t := uzfs_update_ionum_interval s2.update_ionum_interval 0
      ({ s2 with
           rebuildStatus := .DONE,
           volStatus := .HEALTHY,
           update_ionum_interval := t.1 }, t.2)
  else (s2, false)

/-! ## Well-formed and truncated WRITE payloads

`encodeChunk` builds one `(zvol_io_rw_hdr, data)` chunk of the WRITE
payload format; `encodePayload` concatenates chunks.  `chunkWF` is the
side condition that the two 64-bit sub-header fields fit their wire
width, so that encoding and the parser's decoding agree. -/

def encodeChunk (c : Nat × List Nat) : List Nat :=
  leBytes 8 c.1 ++ leBytes 8 c.2.length ++ c.2

def encodePayload (cs : List (Nat × List Nat)) : List Nat :=
  (cs.map encodeChunk).flatten

def chunkWF (c : Nat × List Nat) : Prop :=
  c.1 < 2 ^ 64 ∧ c.2.length < 2 ^ 64

/-- The write log `uzfs_submit_writes` produces when it applies exactly
the chunks `cs` starting at byte offset `off`. -/
def expectedOps (is_rebuild : Bool) (off : Nat) :
    List (Nat × List Nat) → List WriteOp
  | [] => []
  | c :: cs =>
    ⟨off, c.2, c.1, is_rebuild⟩ :: expectedOps is_rebuild (off + c.2.length) cs

/-- A non-empty trailing byte string that the parser must reject: either
too short to hold a sub-header, or declaring a chunk length that
overruns the remaining bytes. -/
def truncatedPayload (t : List Nat) : Prop :=
  t ≠ [] ∧ (t.length < WHDR_SIZE ∨
    t.length - WHDR_SIZE < leVal ((t.drop 8).take 8))

/-! ## Payload bookkeeping helpers -/

/-- Total number of data bytes of a chunk list. -/
def payloadDataLen (cs : List (Nat × List Nat)) : Nat :=
  (cs.map fun c => c.2.length).sum

/-- The value of `running_ionum` after the CAS updates for the chunks
`cs`, starting from `ion`. -/
def maxIon (ion : Nat) : List (Nat × List Nat) → Nat
  | [] => ion
  | c :: cs => maxIon (if ion < c.1 then c.1 else ion) cs

/-! ## Little-endian coding lemmas -/

lemma leBytes_length (w v : Nat) : (leBytes w v).length = w := by
  induction w generalizing v with
  | zero => simp [leBytes]
  | succ w ih => simp [leBytes, ih]

lemma leVal_leBytes (w v : Nat) : leVal (leBytes w v) = v % 2 ^ (8 * w) := by
  induction w generalizing v with
  | zero => simp [leBytes, leVal]; omega
  | succ w ih =>
    have h256 : (2 : Nat) ^ (8 * (w + 1)) = 256 * 2 ^ (8 * w) := by
      rw [Nat.mul_succ, pow_add]
      ring
    simp only [leBytes, leVal, ih]
    rw [Nat.mod_mod_of_dvd v (dvd_refl 256), h256, Nat.mod_mul]

lemma leVal_leBytes64 (v : Nat) (h : v < 2 ^ 64) : leVal (leBytes 8 v) = v := by
  rw [leVal_leBytes]
  exact Nat.mod_eq_of_lt h

/-! ## uzfs_submit_writes lemmas -/

/-- `running_ionum` never decreases across a call of
`uzfs_submit_writes`, whatever the payload and whatever the block-store
results: each update only replaces the value with a strictly larger
one. -/
lemma submit_writes_ionum_mono (is_rebuild : Bool) (wrc : Nat → Int)
    (k off : Nat) (buf : List Nat) (ion : Nat) (acc : List WriteOp) :
    ion ≤ (uzfs_submit_writes is_rebuild wrc k off buf ion acc).2.1 := by
  induction k, off, buf, ion, acc using uzfs_submit_writes.induct is_rebuild wrc with
  | case1 k off buf ion acc h =>
    rw [uzfs_submit_writes, if_pos h]
  | case2 k off buf ion acc h h2 =>
    rw [uzfs_submit_writes, if_neg h, if_pos h2]
  | case3 k off buf ion acc h h2 wlen rest h3 =>
    rw [uzfs_submit_writes, if_neg h, if_neg h2]
    simp only [if_pos h3]
    exact le_refl ion
  | case4 k off buf ion acc h h2 wlen rest h3 h4 =>
    rw [uzfs_submit_writes, if_neg h, if_neg h2]
    simp only [if_neg h3, if_pos h4]
    exact le_refl ion
  | case5 k off buf ion acc h h2 io_num wlen rest h3 h4 ih =>
    rw [uzfs_submit_writes, if_neg h, if_neg h2]
    simp only [if_neg h3, if_neg h4]
    refine le_trans ?_ ih
    split <;> omega

/-- Parsing one well-formed `(sub-header, data)` chunk: the parser
consumes exactly the 16-byte sub-header plus `data` and recurses on the
remaining bytes. -/
lemma submit_writes_chunk_step (is_rebuild : Bool) (wrc : Nat → Int)
    (k off ion : Nat) (acc : List WriteOp) (io : Nat) (d rest : List Nat)
    (hio : io < 2 ^ 64) (hd : d.length < 2 ^ 64) :
    uzfs_submit_writes is_rebuild wrc k off (encodeChunk (io, d) ++ rest)
        ion acc =
      if wrc k ≠ 0 then (wrc k, ion, acc)
      else
        uzfs_submit_writes is_rebuild wrc (k + 1) (off + d.length) rest
          (if ion < io then io else ion)
          (acc ++ [⟨off, d, io, is_rebuild⟩]) := by
  have h8 : (leBytes 8 io).length = 8 := leBytes_length 8 io
  have h8' : (leBytes 8 d.length).length = 8 := leBytes_length 8 d.length
  have hassoc : encodeChunk (io, d) ++ rest =
      leBytes 8 io ++ (leBytes 8 d.length ++ (d ++ rest)) := by
    simp [encodeChunk]
  have hassoc2 : encodeChunk (io, d) ++ rest =
      (leBytes 8 io ++ leBytes 8 d.length) ++ (d ++ rest) := by
    simp [encodeChunk]
  have hlen : (encodeChunk (io, d) ++ rest).length =
      16 + d.length + rest.length := by
    simp [encodeChunk, h8, h8']
    omega
  have htake8 : (encodeChunk (io, d) ++ rest).take 8 = leBytes 8 io := by
    rw [hassoc]
    exact List.take_left' h8
  have hdrop8 : (encodeChunk (io, d) ++ rest).drop 8 =
      leBytes 8 d.length ++ (d ++ rest) := by
    rw [hassoc]
    exact List.drop_left' h8
  have htake8' : ((encodeChunk (io, d) ++ rest).drop 8).take 8 =
      leBytes 8 d.length := by
    rw [hdrop8]
    exact List.take_left' h8'
  have hdrop16 : (encodeChunk (io, d) ++ rest).drop WHDR_SIZE =
      d ++ rest := by
    rw [hassoc2]
    have : (leBytes 8 io ++ leBytes 8 d.length).length = WHDR_SIZE := by
      simp [h8, h8', WHDR_SIZE]
    exact List.drop_left' this
  rw [uzfs_submit_writes]
  rw [if_neg (by omega : ¬(encodeChunk (io, d) ++ rest).length = 0)]
  rw [if_neg (by rw [hlen]; simp [WHDR_SIZE]; omega :
    ¬(encodeChunk (io, d) ++ rest).length < WHDR_SIZE)]
  simp only [htake8, htake8', hdrop16, leVal_leBytes64 io hio,
    leVal_leBytes64 d.length hd]
  rw [if_neg (by simp : ¬(d ++ rest).length < d.length)]
  rw [List.take_left' rfl, List.drop_left' rfl]

/-- Applying a whole well-formed prefix of chunks: the parser applies
each chunk in order (with all block-store writes succeeding) and then
continues on the trailing bytes `t`. -/
lemma submit_writes_chunks (is_rebuild : Bool)
    (cs : List (Nat × List Nat)) (t : List Nat)
    (hwf : ∀ c ∈ cs, chunkWF c) :
    ∀ k off ion acc,
      uzfs_submit_writes is_rebuild (fun _ => 0) k off
          (encodePayload cs ++ t) ion acc =
        uzfs_submit_writes is_rebuild (fun _ => 0) (k + cs.length)
          (off + payloadDataLen cs) t (maxIon ion cs)
          (acc ++ expectedOps is_rebuild off cs) := by
  induction cs with
  | nil =>
    intro k off ion acc
    simp [encodePayload, payloadDataLen, maxIon, expectedOps]
  | cons c cs ih =>
    intro k off ion acc
    obtain ⟨hio, hd⟩ := hwf c (List.mem_cons_self _ _)
    have hwf' : ∀ x ∈ cs, chunkWF x :=
      fun x hx => hwf x (List.mem_cons_of_mem _ hx)
    have hjoin : encodePayload (c :: cs) ++ t =
        encodeChunk c ++ (encodePayload cs ++ t) := by
      simp [encodePayload]
    rw [hjoin]
    obtain ⟨io, d⟩ := c
    rw [submit_writes_chunk_step is_rebuild (fun _ => 0) k off ion acc io d
      (encodePayload cs ++ t) hio hd]
    simp only [ne_eq, not_true_eq_false, if_false, reduceIte]
    have hi := ih hwf' (k + 1) (off + d.length) (if ion < io then io else ion)
      (acc ++ [{ woff := off, wdata := d, wion := io, wreb := is_rebuild }])
    rw [hi]
    simp only [expectedOps, maxIon, payloadDataLen, List.map_cons,
      List.sum_cons, List.length_cons, List.append_assoc,
      List.singleton_append]
    have e1 : k + 1 + cs.length = k + (cs.length + 1) := by omega
    have e2 : off + d.length + (cs.map fun c => c.2.length).sum =
        off + (d.length + (cs.map fun c => c.2.length).sum) := by omega
    rw [e1, e2]

/-- A truncated trailing byte string makes the parser return -1 without
touching `running_ionum` or the block store. -/
lemma submit_writes_truncated (is_rebuild : Bool) (wrc : Nat → Int)
    (k off ion : Nat) (acc : List WriteOp) (t : List Nat)
    (ht : truncatedPayload t) :
    uzfs_submit_writes is_rebuild wrc k off t ion acc = (-1, ion, acc) := by
  obtain ⟨hne, hcase⟩ := ht
  have hpos : 0 < t.length := List.length_pos.mpr hne
  rw [uzfs_submit_writes]
  rw [if_neg (by omega)]
  rcases Nat.lt_or_ge t.length WHDR_SIZE with hshort | hge
  · rw [if_pos hshort]
  · have hover : t.length - WHDR_SIZE < leVal ((t.drop 8).take 8) := by
      rcases hcase with h | h
      · omega
      · exact h
    rw [if_neg (by omega)]
    simp only [List.length_drop]
    rw [if_pos hover]

/-- `maxIon` dominates its starting value. -/
lemma maxIon_ge_start (ion : Nat) (cs : List (Nat × List Nat)) :
    ion ≤ maxIon ion cs := by
  induction cs generalizing ion with
  | nil => simp [maxIon]
  | cons c cs ih =>
    refine le_trans ?_ (ih (if ion < c.1 then c.1 else ion))
    split <;> omega

/-- `maxIon` dominates every chunk ionum. -/
lemma maxIon_ge_mem (ion : Nat) (cs : List (Nat × List Nat)) :
    ∀ c ∈ cs, c.1 ≤ maxIon ion cs := by
  induction cs generalizing ion with
  | nil => simp
  | cons c cs ih =>
    intro x hx
    rcases List.mem_cons.mp hx with h | h
    · subst h
      refine le_trans ?_ (maxIon_ge_start (if ion < x.1 then x.1 else ion) cs)
      split <;> omega
    · exact ih _ x h

/-! ## Socket-loop lemmas (claims C5, C9) -/

lemma socket_write_no_err (evs : List WriteEv) (n : Nat)
    (h : WriteEv.err ∉ evs) :
    ∀ rest, uzfs_zvol_socket_write evs n ≠ .done (-1) rest := by
  induction evs generalizing n with
  | nil =>
    intro rest
    cases n with
    | zero => simp [uzfs_zvol_socket_write]
    | succ m => simp [uzfs_zvol_socket_write]
  | cons e r ih =>
    intro rest
    have hr : WriteEv.err ∉ r := fun hm => h (List.mem_cons_of_mem _ hm)
    cases n with
    | zero => simp [uzfs_zvol_socket_write]
    | succ m =>
      cases e with
      | wrote k =>
        simpa [uzfs_zvol_socket_write] using ih (m + 1 - k) hr rest
      | eintr =>
        simpa [uzfs_zvol_socket_write] using ih (m + 1) hr rest
      | err => exact absurd (List.mem_cons_self _ _) h

lemma socket_write_zero_blocked (m n : Nat) (h : 0 < n) :
    uzfs_zvol_socket_write (List.replicate m (.wrote 0)) n = .blocked := by
  induction m with
  | zero =>
    cases n with
    | zero => omega
    | succ k => simp [uzfs_zvol_socket_write]
  | succ m ih =>
    cases n with
    | zero => omega
    | succ k =>
      simpa [List.replicate_succ, uzfs_zvol_socket_write] using ih

lemma socket_write_progress (evs : List WriteEv) (n : Nat)
    (h : ∀ e ∈ evs, ∃ k, e = WriteEv.wrote k ∧ 1 ≤ k)
    (hn : n ≤ evs.length) :
    ∃ rest, uzfs_zvol_socket_write evs n = .done 0 rest := by
  induction evs generalizing n with
  | nil =>
    cases n with
    | zero => exact ⟨[], by simp [uzfs_zvol_socket_write]⟩
    | succ m => simp at hn
  | cons e r ih =>
    cases n with
    | zero => exact ⟨e :: r, by simp [uzfs_zvol_socket_write]⟩
    | succ m =>
      obtain ⟨k, hek, hk⟩ := h e (List.mem_cons_self _ _)
      subst hek
      have hr : ∀ x ∈ r, ∃ k, x = WriteEv.wrote k ∧ 1 ≤ k :=
        fun x hx => h x (List.mem_cons_of_mem _ hx)
      have hlen : m + 1 - k ≤ r.length := by
        simp [List.length_cons] at hn
        omega
      simpa [uzfs_zvol_socket_write] using ih (m + 1 - k) hr hlen

/-- C9: uzfs_zvol_socket_write, unlike uzfs_zvol_socket_read, does not
treat a zero-byte transfer as peer close: it returns -1 only when an
underlying write fails with an errno other than EINTR (a stream with no
such failure can never produce -1); it terminates with 0 when every
write call transfers at least one byte and enough calls are available;
and a write that persistently returns 0 makes the loop run forever (on
any finite stream of zero-byte writes the loop still blocks), whereas
the read loop fails immediately on a zero-byte read. -/
theorem C9_socket_write_zero_transfer :
    (∀ evs n, WriteEv.err ∉ evs →
      ∀ rest, uzfs_zvol_socket_write evs n ≠ .done (-1) rest) ∧
    (∀ m n, 0 < n →
      uzfs_zvol_socket_write (List.replicate m (.wrote 0)) n = .blocked) ∧
    (∀ evs n, (∀ e ∈ evs, ∃ k, e = WriteEv.wrote k ∧ 1 ≤ k) →
      n ≤ evs.length →
      ∃ rest, uzfs_zvol_socket_write evs n = .done 0 rest) ∧
    (∀ r n, uzfs_zvol_socket_read (.bytes [] :: r) (n + 1) = .fail r) := by
  refine ⟨socket_write_no_err, socket_write_zero_blocked,
    socket_write_progress, ?_⟩
  intro r n
  simp [uzfs_zvol_socket_read]

theorem C9_socket_write_zero_transfer_witness :
    (uzfs_zvol_socket_write [.wrote 1, .eintr, .wrote 2] 3 ≠
      .done (-1) []) ∧
    uzfs_zvol_socket_write (List.replicate 5 (.wrote 0)) 2 = .blocked ∧
    (∃ rest, uzfs_zvol_socket_write [.wrote 1, .wrote 2] 2 =
      .done 0 rest) ∧
    uzfs_zvol_socket_read [.bytes [], .err] 4 = .fail [.err] :=
  ⟨C9_socket_write_zero_transfer.1 _ 3 (by decide) [],
   C9_socket_write_zero_transfer.2.1 5 2 (by decide),
   C9_socket_write_zero_transfer.2.2.1 _ 2
     (by
       intro e he
       simp only [List.mem_cons, List.not_mem_nil, or_false] at he
       rcases he with h | h <;> subst h
       · exact ⟨1, rfl, Nat.le_refl 1⟩
       · exact ⟨2, rfl, by omega⟩)
     (by decide),
   C9_socket_write_zero_transfer.2.2.2 [.err] 3⟩

/-- C5: uzfs_zvol_read_header first reads only the version field; a
version different from the supported one yields result 1 with the
socket stream exactly as the two-byte version read left it (no further
bytes consumed); the result is -1 exactly when one of the two socket
reads fails, and 0 exactly when the full header was read under a valid
version. -/
theorem C5_read_header_codes (ver : Nat) (evs : List ReadEv) :
    (∀ r, uzfs_zvol_socket_read evs VERSION_SIZE = .fail r →
      uzfs_zvol_read_header ver evs = some (-1, r)) ∧
    (∀ got r, uzfs_zvol_socket_read evs VERSION_SIZE = .ok got r →
      leVal got ≠ ver → uzfs_zvol_read_header ver evs = some (1, r)) ∧
    (∀ got r r2, uzfs_zvol_socket_read evs VERSION_SIZE = .ok got r →
      leVal got = ver →
      uzfs_zvol_socket_read r (HDR_SIZE - VERSION_SIZE) = .fail r2 →
      uzfs_zvol_read_header ver evs = some (-1, r2)) ∧
    (∀ got r g2 r2, uzfs_zvol_socket_read evs VERSION_SIZE = .ok got r →
      leVal got = ver →
      uzfs_zvol_socket_read r (HDR_SIZE - VERSION_SIZE) = .ok g2 r2 →
      uzfs_zvol_read_header ver evs = some (0, r2)) ∧
    (∀ rc rest, uzfs_zvol_read_header ver evs = some (rc, rest) →
      rc < 0 →
      (∃ r, uzfs_zvol_socket_read evs VERSION_SIZE = .fail r) ∨
      (∃ got r r2, uzfs_zvol_socket_read evs VERSION_SIZE = .ok got r ∧
        uzfs_zvol_socket_read r (HDR_SIZE - VERSION_SIZE) = .fail r2)) ∧
    (∀ rest, uzfs_zvol_read_header ver evs = some (0, rest) →
      ∃ got r g2, uzfs_zvol_socket_read evs VERSION_SIZE = .ok got r ∧
        leVal got = ver ∧
        uzfs_zvol_socket_read r (HDR_SIZE - VERSION_SIZE) = .ok g2 rest) := by
  refine ⟨?_, ?_, ?_, ?_, ?_, ?_⟩
  · intro r h
    simp [uzfs_zvol_read_header, h]
  · intro got r h hv
    simp [uzfs_zvol_read_header, h, hv]
  · intro got r r2 h hv h2
    simp [uzfs_zvol_read_header, h, hv, h2]
  · intro got r g2 r2 h hv h2
    simp [uzfs_zvol_read_header, h, hv, h2]
  · intro rc rest h hneg
    unfold uzfs_zvol_read_header at h
    cases h1 : uzfs_zvol_socket_read evs VERSION_SIZE with
    | blocked => simp [h1] at h
    | fail r => exact Or.inl ⟨r, rfl⟩
    | ok got r =>
      rw [h1] at h
      by_cases hv : leVal got = ver
      · cases h2 : uzfs_zvol_socket_read r (HDR_SIZE - VERSION_SIZE) with
        | blocked => simp [hv, h2] at h
        | fail r2 => exact Or.inr ⟨got, r, r2, rfl, h2⟩
        | ok g2 r2 =>
          simp [hv, h2] at h
          omega
      · simp [hv] at h
        omega
  · intro rest h
    unfold uzfs_zvol_read_header at h
    cases h1 : uzfs_zvol_socket_read evs VERSION_SIZE with
    | blocked => simp [h1] at h
    | fail r => simp [h1] at h
    | ok got r =>
      rw [h1] at h
      by_cases hv : leVal got = ver
      · cases h2 : uzfs_zvol_socket_read r (HDR_SIZE - VERSION_SIZE) with
        | blocked => simp [hv, h2] at h
        | fail r2 => simp [hv, h2] at h
        | ok g2 r2 =>
          simp [hv, h2] at h
          exact ⟨got, r, g2, rfl, hv, h ▸ h2⟩
      · simp [hv] at h

theorem C5_read_header_codes_witness :
    uzfs_zvol_read_header 3 [.bytes [4, 0], .bytes [9]] =
      some (1, [ReadEv.bytes [9]]) :=
  (C5_read_header_codes 3 [.bytes [4, 0], .bytes [9]]).2.1
    [4, 0] [ReadEv.bytes [9]] (by decide) (by decide)

/-! ## Timer-interval update (claim C7) -/

/-- C7 counterexample: with the per-volume interval already 0, the call
uzfs_update_ionum_interval(zinfo, 0) hits the equal-interval early
return and does not signal the timer condition variable, contradicting
the claim that every timeout-0 call wakes the timer thread. -/
theorem C7_counterexample :
    ¬((uzfs_update_ionum_interval 0 0).1 = 0 ∧
      (uzfs_update_ionum_interval 0 0).2 = true) := by
  decide

/-- C7 (amended): uzfs_update_ionum_interval(zinfo, 0) always leaves
the per-volume interval unchanged, and it signals the timer condition
variable exactly when the current interval is nonzero; when the
interval is already 0 the call returns early without signaling. -/
theorem C7_update_ionum_interval_amended (ivl : Nat) :
    (uzfs_update_ionum_interval ivl 0).1 = ivl ∧
    ((uzfs_update_ionum_interval ivl 0).2 = true ↔ ivl ≠ 0) := by
  by_cases h : ivl = 0 <;> simp [uzfs_update_ionum_interval, h]

/-! ## Rebuild-downstream completion path (claim C6) -/

/-- C6: when the downstream driver reaches the end of the volume, the
REBUILD_COMPLETE branch yields rc = 0 whether or not the final socket
write succeeds, and the exit bookkeeping run with that rc leaves
rebuild_failed_cnt unchanged and never sets the ERRORED status for this
peer. -/
theorem C6_rebuild_complete_counts_success (writeRc : Int)
    (s : DwExitState) :
    (uzfs_zvol_rebuild_dw_complete_branch writeRc).1 = 0 ∧
    (uzfs_zvol_rebuild_dw_exit
        (uzfs_zvol_rebuild_dw_complete_branch writeRc).1
        s).1.info.rebuild_failed_cnt = s.info.rebuild_failed_cnt := by
  have hrc : (uzfs_zvol_rebuild_dw_complete_branch writeRc).1 = 0 := by
    unfold uzfs_zvol_rebuild_dw_complete_branch
    split <;> rfl
  refine ⟨hrc, ?_⟩
  rw [hrc]
  unfold uzfs_zvol_rebuild_dw_exit
  simp only [ne_eq, not_true_eq_false, if_false, reduceIte]
  split
  · split <;> simp [uzfs_update_ionum_interval]
  · simp

/-! ## Claim C1 -/

/-- C1: running_ionum is monotone: whatever the payload, the flags, the
block-store results and the starting value, uzfs_submit_writes never
decreases running_ionum (each CAS-loop update only replaces the value
with a strictly larger chunk io_num); and for a WRITE whose payload
encodes sub-header chunks with io_num values a_i that are all applied,
the resulting running_ionum is at least every a_i. -/
theorem C1_running_ionum_monotone :
    (∀ (is_rebuild : Bool) (wrc : Nat → Int) (k off : Nat)
        (buf : List Nat) (ion : Nat) (acc : List WriteOp),
      ion ≤ (uzfs_submit_writes is_rebuild wrc k off buf ion acc).2.1) ∧
    (∀ (is_rebuild : Bool) (cs : List (Nat × List Nat)) (off ion : Nat),
      (∀ c ∈ cs, chunkWF c) →
      ∀ c ∈ cs, c.1 ≤
        (uzfs_submit_writes is_rebuild (fun _ => 0) 0 off
          (encodePayload cs) ion []).2.1) := by
  refine ⟨submit_writes_ionum_mono, ?_⟩
  intro is_rebuild cs off ion hwf c hc
  have h := submit_writes_chunks is_rebuild cs [] hwf 0 off ion []
  rw [List.append_nil] at h
  rw [h, uzfs_submit_writes]
  simp only [List.length_nil, if_pos rfl]
  exact maxIon_ge_mem ion cs c hc

theorem C1_running_ionum_monotone_witness :
    5 ≤ (uzfs_submit_writes false (fun _ => 0) 0 0
      (encodePayload [(5, [170]), (3, [9])]) 2 []).2.1 :=
  C1_running_ionum_monotone.2 false [(5, [170]), (3, [9])] 0 2
    (by intro c hc; fin_cases hc <;> exact ⟨by norm_num, by norm_num⟩)
    (5, [170]) (by decide)

/-! ## Worker structural lemmas (claims C2, C3, C4, C8, C10) -/

/-- Every successful run of the worker body reaches the single
`drop_refcount` label having performed no refcount drop yet, and it
either leaves `complete_queue` untouched or appends exactly the one
finished command, the latter never for a rebuild-flagged WRITE. -/
lemma worker_body_cases (zinfo : ZinfoState) (is_rebuilded : Bool)
    (readRc : Int) (wrc : Nat → Int) (cmd : ZioCmd) (o : WorkerOut)
    (h : uzfs_zvol_worker_body zinfo is_rebuilded readRc wrc cmd = some o) :
    o.refDrops = 0 ∧
    (o.zinfo.complete_queue = zinfo.complete_queue ∨
      (o.zinfo.complete_queue =
          zinfo.complete_queue ++ [{ cmd with hdr := o.hdr }] ∧
        o.dispo = .enqueued ∧
        ¬(Nat.land cmd.hdr.flags ZVOL_OP_FLAG_REBUILD ≠ 0 ∧
          cmd.hdr.opcode = .WRITE))) := by
  unfold uzfs_zvol_worker_body at h
  simp only [] at h
  split at h
  · split at h
    · split at h
      · cases h
        exact ⟨rfl, Or.inl rfl⟩
      · exact Option.noConfusion h
    · cases h
      exact ⟨rfl, Or.inl rfl⟩
  · split at h
    · exact Option.noConfusion h
    · rename_i rc zinfo1 ops flushed heq
      have hq : zinfo1.complete_queue = zinfo.complete_queue := by
        split at heq <;>
          first
          | (cases heq; rfl)
          | exact Option.noConfusion heq
      split at h
      · cases h
        exact ⟨rfl, Or.inl hq⟩
      · rename_i hreb
        split at h
        · split at h
          · cases h
            exact ⟨rfl, Or.inl hq⟩
          · exact Option.noConfusion h
        · cases h
          refine ⟨rfl, Or.inr ⟨?_, rfl, hreb⟩⟩
          simp only [hq]

/-- C2: every IoCmd whose worker run completes (offline early abort,
rebuild-write suppression, ack-sender-dead free, or normal enqueue)
performs exactly one refcount drop on the volume: never zero, never
two. -/
theorem C2_worker_single_refcount_drop (zinfo : ZinfoState)
    (is_rebuilded : Bool) (readRc : Int) (wrc : Nat → Int) (cmd : ZioCmd)
    (out : WorkerOut)
    (h : uzfs_zvol_worker zinfo is_rebuilded readRc wrc cmd = some out) :
    out.refDrops = 1 := by
  unfold uzfs_zvol_worker at h
  rcases Option.map_eq_some'.mp h with ⟨o, ho, hmap⟩
  have h0 := (worker_body_cases _ _ _ _ _ _ ho).1
  rw [← hmap]
  simp [dropRef, h0]

/-- C3: no IoCmd that is a rebuild-flagged WRITE is ever appended to the
volume's complete_queue by the worker, whether the command succeeds,
fails, or the volume is offline. -/
theorem C3_rebuild_write_never_enqueued (zinfo : ZinfoState)
    (is_rebuilded : Bool) (readRc : Int) (wrc : Nat → Int) (cmd : ZioCmd)
    (out : WorkerOut)
    (h : uzfs_zvol_worker zinfo is_rebuilded readRc wrc cmd = some out)
    (hop : cmd.hdr.opcode = .WRITE)
    (hfl : Nat.land cmd.hdr.flags ZVOL_OP_FLAG_REBUILD ≠ 0) :
    out.zinfo.complete_queue = zinfo.complete_queue := by
  unfold uzfs_zvol_worker at h
  rcases Option.map_eq_some'.mp h with ⟨o, ho, hmap⟩
  rcases (worker_body_cases _ _ _ _ _ _ ho).2 with hq | ⟨_, _, hcon⟩
  · rw [← hmap]
    exact hq
  · exact absurd ⟨hfl, hop⟩ hcon

/-- C4: while the volume is OFFLINE the worker short-circuits: status is
forced to FAILED with len 0, nothing is enqueued on the completion
queue, the command is freed unless it is a rebuild-flagged WRITE (whose
buffer the caller owns), and the refcount is dropped exactly once. -/
theorem C4_offline_failed_no_enqueue (zinfo : ZinfoState)
    (is_rebuilded : Bool) (readRc : Int) (wrc : Nat → Int) (cmd : ZioCmd)
    (hoff : zinfo.state = .OFFLINE)
    (hfree : zio_cmd_free_ok cmd = true) :
    ∃ out, uzfs_zvol_worker zinfo is_rebuilded readRc wrc cmd = some out ∧
      out.hdr.status = .FAILED ∧ out.hdr.len = 0 ∧
      out.zinfo.complete_queue = zinfo.complete_queue ∧
      out.dispo = (if Nat.land cmd.hdr.flags ZVOL_OP_FLAG_REBUILD ≠ 0 ∧
          cmd.hdr.opcode = .WRITE then CmdDispo.callerOwned
        else CmdDispo.freed) ∧
      out.refDrops = 1 := by
  unfold uzfs_zvol_worker uzfs_zvol_worker_body
  by_cases hc : Nat.land cmd.hdr.flags ZVOL_OP_FLAG_REBUILD ≠ 0 ∧
    cmd.hdr.opcode = .WRITE
  · simp [hoff, hc, dropRef]
  · simp [hoff, hc, hfree, dropRef]

/-- Shape of a worker run on a WRITE command against an online volume:
the run completes, the block-store effects are exactly those of
uzfs_submit_writes on the command's payload, and the header is marked
OK or FAILED (with len zeroed) according to the submit result. -/
lemma worker_write_online (zinfo : ZinfoState) (is_rebuilded : Bool)
    (readRc : Int) (wrc : Nat → Int) (cmd : ZioCmd)
    (rc : Int) (ion2 : Nat) (ops : List WriteOp)
    (hon : zinfo.state = .ONLINE)
    (hop : cmd.hdr.opcode = .WRITE)
    (hw : uzfs_submit_writes
        (decide (Nat.land cmd.hdr.flags ZVOL_OP_FLAG_REBUILD ≠ 0)) wrc 0
        cmd.hdr.offset (cmd.buf.getD []) zinfo.running_ionum [] =
      (rc, ion2, ops)) :
    ∃ out, uzfs_zvol_worker zinfo is_rebuilded readRc wrc cmd = some out ∧
      out.hdr.status = (if rc ≠ 0 then ZvolOpStatus.FAILED else .OK) ∧
      out.hdr.len = (if rc ≠ 0 then 0 else cmd.hdr.len) ∧
      out.storeWrites = ops ∧
      out.zinfo.running_ionum = ion2 ∧
      out.zinfo.write_req_received_cnt =
        zinfo.write_req_received_cnt + 1 := by
  unfold uzfs_zvol_worker uzfs_zvol_worker_body
  simp only [hon, hop, hw]
  by_cases hrc : rc ≠ 0
  · by_cases hc : Nat.land cmd.hdr.flags ZVOL_OP_FLAG_REBUILD ≠ 0
    · simp [hrc, hc, dropRef]
    · by_cases hack : zinfo.is_io_ack_sender_created
      · simp [hrc, hc, hack, dropRef]
      · simp [hrc, hc, hack, dropRef, zio_cmd_free_ok, hop]
  · by_cases hc : Nat.land cmd.hdr.flags ZVOL_OP_FLAG_REBUILD ≠ 0
    · simp [hrc, hc, dropRef]
    · by_cases hack : zinfo.is_io_ack_sender_created
      · simp [hrc, hc, hack, dropRef]
      · simp [hrc, hc, hack, dropRef, zio_cmd_free_ok, hop]

/-- C8: uzfs_submit_writes is not atomic on failure: a WRITE whose
payload carries k well-formed chunks followed by a truncated tail makes
the worker mark the command FAILED (len 0), yet the k chunks are
already written to the block store in order and running_ionum has
already advanced to at least the largest io_num among them. -/
theorem C8_truncated_write_not_atomic (zinfo : ZinfoState)
    (is_rebuilded : Bool) (readRc : Int) (cmd : ZioCmd)
    (cs : List (Nat × List Nat)) (t : List Nat)
    (hon : zinfo.state = .ONLINE)
    (hop : cmd.hdr.opcode = .WRITE)
    (hbuf : cmd.buf = some (encodePayload cs ++ t))
    (hwf : ∀ c ∈ cs, chunkWF c)
    (ht : truncatedPayload t) :
    ∃ out, uzfs_zvol_worker zinfo is_rebuilded readRc (fun _ => 0) cmd =
        some out ∧
      out.hdr.status = .FAILED ∧ out.hdr.len = 0 ∧
      out.storeWrites = expectedOps
        (decide (Nat.land cmd.hdr.flags ZVOL_OP_FLAG_REBUILD ≠ 0))
        cmd.hdr.offset cs ∧
      out.zinfo.running_ionum = maxIon zinfo.running_ionum cs ∧
      ∀ c ∈ cs, c.1 ≤ out.zinfo.running_ionum := by
  have hw : uzfs_submit_writes
      (decide (Nat.land cmd.hdr.flags ZVOL_OP_FLAG_REBUILD ≠ 0))
      (fun _ => 0) 0 cmd.hdr.offset (cmd.buf.getD [])
      zinfo.running_ionum [] =
      (-1, maxIon zinfo.running_ionum cs,
        expectedOps (decide (Nat.land cmd.hdr.flags ZVOL_OP_FLAG_REBUILD ≠ 0))
          cmd.hdr.offset cs) := by
    rw [hbuf]
    simp only [Option.getD_some]
    rw [submit_writes_chunks _ cs t hwf 0 cmd.hdr.offset
      zinfo.running_ionum []]
    rw [submit_writes_truncated _ _ _ _ _ _ _ ht]
    simp
  obtain ⟨out, hwk, hst, hlen, hops, hion, _⟩ :=
    worker_write_online zinfo is_rebuilded readRc (fun _ => 0) cmd
      (-1) (maxIon zinfo.running_ionum cs)
      (expectedOps (decide (Nat.land cmd.hdr.flags ZVOL_OP_FLAG_REBUILD ≠ 0))
        cmd.hdr.offset cs) hon hop hw
  refine ⟨out, hwk, ?_, ?_, hops, hion, ?_⟩
  · rw [hst]
    norm_num
  · rw [hlen]
    norm_num
  · intro c hc
    rw [hion]
    exact maxIon_ge_mem zinfo.running_ionum cs c hc

/-- C10: a WRITE with an empty payload (header len 0) succeeds:
zio_cmd_alloc yields a zero-length buffer with buf_len 0, the worker
performs no block-store write, leaves running_ionum untouched, and the
command completes with status OK. -/
theorem C10_empty_write_succeeds (zinfo : ZinfoState)
    (is_rebuilded : Bool) (readRc : Int) (wrc : Nat → Int)
    (hdr : ZvolIoHdr) (fd : Nat)
    (hon : zinfo.state = .ONLINE) (hop : hdr.opcode = .WRITE)
    (hlen : hdr.len = 0) :
    (zio_cmd_alloc hdr fd).buf = some [] ∧
    (zio_cmd_alloc hdr fd).buf_len = 0 ∧
    ∃ out, uzfs_zvol_worker zinfo is_rebuilded readRc wrc
        (zio_cmd_alloc hdr fd) = some out ∧
      out.hdr.status = .OK ∧ out.storeWrites = [] ∧
      out.zinfo.running_ionum = zinfo.running_ionum := by
  have halloc : zio_cmd_alloc hdr fd =
      { hdr := hdr, buf := some [], buf_len := 0, conn := fd } := by
    simp [zio_cmd_alloc, hop, hlen]
  have hw : uzfs_submit_writes
      (decide (Nat.land (zio_cmd_alloc hdr fd).hdr.flags
        ZVOL_OP_FLAG_REBUILD ≠ 0)) wrc 0
      (zio_cmd_alloc hdr fd).hdr.offset
      ((zio_cmd_alloc hdr fd).buf.getD []) zinfo.running_ionum [] =
      (0, zinfo.running_ionum, []) := by
    rw [halloc]
    simp only [Option.getD_some]
    rw [uzfs_submit_writes]
    simp
  obtain ⟨out, hwk, hst, _, hops, hion, _⟩ :=
    worker_write_online zinfo is_rebuilded readRc wrc
      (zio_cmd_alloc hdr fd) 0 zinfo.running_ionum []
      hon (by rw [halloc]; exact hop) hw
  refine ⟨by rw [halloc], by rw [halloc], out, hwk, ?_, hops, hion⟩
  rw [hst]
  norm_num

theorem C2_worker_single_refcount_drop_witness :
    uzfs_zvol_worker ⟨.ONLINE, true, false, [], 7, 0, 0, 0⟩ false 0
        (fun _ => 0) ⟨⟨1, .SYNC, 0, .OK, 2, 3, 4, 5⟩, none, 0, 9⟩ =
      some ⟨⟨.ONLINE, true, false,
          [⟨⟨1, .SYNC, 0, .OK, 2, 3, 4, 5⟩, none, 0, 9⟩], 7, 0, 0, 1⟩,
        ⟨1, .SYNC, 0, .OK, 2, 3, 4, 5⟩, .enqueued, false, [], true, true, 1⟩ ∧
    (⟨⟨.ONLINE, true, false,
          [⟨⟨1, .SYNC, 0, .OK, 2, 3, 4, 5⟩, none, 0, 9⟩], 7, 0, 0, 1⟩,
        ⟨1, .SYNC, 0, .OK, 2, 3, 4, 5⟩, .enqueued, false, [], true, true,
        1⟩ : WorkerOut).refDrops = 1 := by
  have h : uzfs_zvol_worker ⟨.ONLINE, true, false, [], 7, 0, 0, 0⟩ false 0
      (fun _ => 0) ⟨⟨1, .SYNC, 0, .OK, 2, 3, 4, 5⟩, none, 0, 9⟩ =
      some ⟨⟨.ONLINE, true, false,
          [⟨⟨1, .SYNC, 0, .OK, 2, 3, 4, 5⟩, none, 0, 9⟩], 7, 0, 0, 1⟩,
        ⟨1, .SYNC, 0, .OK, 2, 3, 4, 5⟩, .enqueued, false, [], true, true,
        1⟩ := rfl
  exact ⟨h, C2_worker_single_refcount_drop _ _ _ _ _ _ h⟩

theorem C3_rebuild_write_never_enqueued_witness :
    ∃ out, uzfs_zvol_worker ⟨.ONLINE, true, false, [], 7, 0, 0, 0⟩ false 0
        (fun _ => 0) ⟨⟨1, .WRITE, 1, .OK, 0, 0, 512, 0⟩, some [], 0, 9⟩ =
        some out ∧ out.zinfo.complete_queue = [] := by
  have hw : uzfs_submit_writes
      (decide (Nat.land (1 : Nat) ZVOL_OP_FLAG_REBUILD ≠ 0)) (fun _ => 0) 0
      (512 : Nat) ([] : List Nat) (7 : Nat) [] = (0, 7, []) := by
    rw [uzfs_submit_writes]
    simp
  obtain ⟨out, hwk, _, _, _, _, _⟩ :=
    worker_write_online ⟨.ONLINE, true, false, [], 7, 0, 0, 0⟩ false 0
      (fun _ => 0) ⟨⟨1, .WRITE, 1, .OK, 0, 0, 512, 0⟩, some [], 0, 9⟩
      0 7 [] rfl rfl hw
  exact ⟨out, hwk,
    C3_rebuild_write_never_enqueued _ _ _ _ _ _ hwk rfl (by decide)⟩

theorem C4_offline_failed_no_enqueue_witness :
    ∃ out, uzfs_zvol_worker ⟨.OFFLINE, true, false, [], 0, 0, 0, 0⟩ false 0
        (fun _ => 0) ⟨⟨1, .SYNC, 0, .OK, 0, 0, 0, 0⟩, none, 0, 3⟩ =
        some out ∧
      out.hdr.status = .FAILED ∧ out.hdr.len = 0 ∧
      out.zinfo.complete_queue = [] ∧
      out.dispo = CmdDispo.freed ∧
      out.refDrops = 1 :=
  C4_offline_failed_no_enqueue _ _ _ _ _ rfl rfl

theorem C8_truncated_write_not_atomic_witness :
    ∃ out, uzfs_zvol_worker ⟨.ONLINE, true, false, [], 2, 0, 0, 0⟩ false 0
        (fun _ => 0)
        ⟨⟨1, .WRITE, 0, .OK, 0, 0, 100, 0⟩,
          some (encodePayload [(5, [170])] ++ [1, 2, 3]), 0, 4⟩ =
        some out ∧
      out.hdr.status = .FAILED ∧ out.hdr.len = 0 ∧
      out.storeWrites = expectedOps false 100 [(5, [170])] ∧
      out.zinfo.running_ionum = maxIon 2 [(5, [170])] ∧
      ∀ c ∈ [((5 : Nat), [(170 : Nat)])], c.1 ≤ out.zinfo.running_ionum :=
  C8_truncated_write_not_atomic _ _ _ _ [(5, [170])] [1, 2, 3] rfl rfl rfl
    (by intro c hc; fin_cases hc; exact ⟨by norm_num, by norm_num⟩)
    ⟨by simp, Or.inl (by norm_num [WHDR_SIZE])⟩

theorem C10_empty_write_succeeds_witness :
    (zio_cmd_alloc ⟨1, .WRITE, 0, .OK, 0, 0, 512, 0⟩ 6).buf = some [] ∧
    (zio_cmd_alloc ⟨1, .WRITE, 0, .OK, 0, 0, 512, 0⟩ 6).buf_len = 0 ∧
    ∃ out, uzfs_zvol_worker ⟨.ONLINE, true, true, [], 11, 0, 0, 0⟩ true 0
        (fun _ => 0) (zio_cmd_alloc ⟨1, .WRITE, 0, .OK, 0, 0, 512, 0⟩ 6) =
        some out ∧
      out.hdr.status = .OK ∧ out.storeWrites = [] ∧
      out.zinfo.running_ionum = 11 :=
  C10_empty_write_succeeds _ _ _ _ _ _ rfl rfl rfl

end DataConn
